import Mathlib

set_option maxRecDepth 10000

/-!
# Verification of the sysex-mapatron controller core

Shallow embedding of `src/control/src/controllers/sysex_mapped.rs` and
`src/control/src/bin/jupx.rs`.

The LED message buffer `led_msg_buf : [u8; 7 + 4*64 + 1]` is embedded as a
`List Nat` of length 264 whose entries are byte values.  A Rust indexing
write that can panic (out-of-bounds index) is embedded as an
`Option`-returning checked write, with `none` standing for the panic.
External transports (midir ports, tokio channels and `StreamMap`) are
embedded as explicit data: a port is its name, an output connection records
the list of sysex messages sent on it, a channel is a bounded queue, and the
stream merge is indexed by an explicit scheduling sequence.
-/

/-- A Rust indexed write `buf[idx] = val`: succeeds exactly when `idx` is in
bounds; an out-of-bounds index panics, embedded as `none`. -/
def setChecked (buf : List Nat) (idx val : Nat) : Option (List Nat) :=
  if idx < buf.length then some (buf.set idx val) else none

namespace Controller

/-- Rust `Controller::init` (sysex_mapped.rs lines 134–145): writes the 7 header
bytes — sysex start `0xF0`, the vendor-id triplet and sub-command
`0x47 0x7F 0x43 0x65`, and the 14-bit length `4*64` split over two 7-bit
bytes — then the per-cell index bytes at `7 + i*4`, then the terminator
`0xF7` in the last byte. -/
def init (buf : List Nat) : List Nat :=
  let len : Nat := 4 * 64
  let buf := [0xf0, 0x47, 0x7f, 0x43, 0x65, (len >>> 7) &&& 0x7f, len &&& 0x7f]
    ++ buf.drop 7
  let buf := (List.range 64).foldl (fun b i => b.set (7 + i * 4) (i % 256)) buf
  buf.set (buf.length - 1) 0xf7

/-- The buffer of a freshly constructed controller: `led_msg_buf: [0; 264]`
(sysex_mapped.rs line 124) followed by the `init()` call on line 126. -/
def initBuf : List Nat := init (List.replicate 264 0)

/-- Rust `Controller::set_led` (lines 160–164): three writes of the clamped
channel values at the cell's fixed offsets, in buffer order.  Each write is
bounds-checked as in Rust; the first out-of-bounds index panics (`none`)
before any later write happens. -/
def set_led (buf : List Nat) (i r g b : Nat) : Option (List Nat) := do
  let buf ← setChecked buf (7 + i * 4 + 1) (min 0x7f r)
  let buf ← setChecked buf (7 + i * 4 + 2) (min 0x7f g)
  setChecked buf (7 + i * 4 + 3) (min 0x7f b)

/-- One iteration of the `set_color_cube` loop body (lines 150–157) for cell
`i`: derive `(x, y, z)` from the index and write the three clamped scaled
coordinates.  Indices `7 + i*4 + c` are in bounds for every `i < 64` on the
264-byte buffer, as in the fixed-size Rust array. -/
def cubeStep (b : List Nat) (i : Nat) : List Nat :=
  let x := i % 4
  let y := i / 16
  let z := (i % 16) / 4
  let b := b.set (7 + i * 4 + 1) (min 0x7f (x * 0x20))
  let b := b.set (7 + i * 4 + 2) (min 0x7f (y * 0x20))
  b.set (7 + i * 4 + 3) (min 0x7f (z * 0x20))

/-- Rust `Controller::set_color_cube` (lines 149–158): the loop `for i in 0..64`
over `cubeStep`. -/
def set_color_cube (buf : List Nat) : List Nat :=
  (List.range 64).foldl cubeStep buf

end Controller

/-- State of a grid button event, `ButtonState` (spec §3): pressed or released. -/
inductive ButtonState where
  | Down
  | Up
deriving DecidableEq

/-- Rust `ControllerEvent` (spec §3): a grid button event carries the cell index,
row, column, button state and velocity; recognized non-grid events are the
catch-all matched by `_ => ()` in jupx.rs.  The "unrecognized" case is the
`none` of the decoder. -/
inductive ControllerEvent where
  | GridButton (cellIndex row col : Nat) (st : ButtonState) (velocity : Nat)
  | Other
deriving DecidableEq

/-- Modelled from the spec: `ControllerEvent::from_midi` is called from the
input callback (sysex_mapped.rs line 102) but its definition is not under
`src/`.  Spec §4.2: a pure decode of (status byte, cell index, velocity)
into a `GridButton` press/release on the grid surface, with row/column
derived from the fixed 4-row × 16-column grid geometry; any byte pattern
not matching a known message shape yields no event, and decoding never
fails with an error. -/
def ControllerEvent.from_midi (msg : List Nat) : Option ControllerEvent :=
  match msg with
  | [status, note, velocity] =>
      if status = 0x90 then
        some (.GridButton note (note / 16) (note % 16) .Down velocity)
      else if status = 0x80 then
        some (.GridButton note (note / 16) (note % 16) .Up velocity)
      else none
  | _ => none

/-- The raw message shapes recognized by `ControllerEvent.from_midi`
(spec §4.2: grid press/release messages). -/
def recognizedShape (msg : List Nat) : Prop :=
  ∃ note velocity : Nat,
    msg = [0x90, note, velocity] ∨ msg = [0x80, note, velocity]

/-- A `MidiOutputConnection`, embedded as the name of the port it is
connected to together with the sysex messages sent on it, in order. -/
structure OutConn where
  port : String
  sent : List (List Nat)
deriving DecidableEq

/-- Rust `ConnectedController` (sysex_mapped.rs lines 40–43): the two live
transport handles; the input handle is embedded by its port name. -/
structure ConnectedController where
  in_conn : String
  out_conn : OutConn
deriving DecidableEq

/-- Rust `ControllerState` (lines 45–48). -/
inductive ControllerState where
  | Disconnected
  | Connected (cs : ConnectedController)
deriving DecidableEq

/-- The receiving end of `tokio::sync::mpsc::channel(100)`, embedded as the
bounded queue it carries. -/
structure Channel where
  capacity : Nat
  queue : List ControllerEvent
deriving DecidableEq

/-- Rust `Controller` (lines 50–60). -/
structure Controller where
  id : Nat
  state : ControllerState
  event_rx : Option Channel
  led_msg_buf : List Nat
deriving DecidableEq

/-- Rust `mpsc::Sender::try_send` on the bounded channel: succeeds exactly when
the queue is below capacity, appending the event at the back; a full queue
makes the send fail (`none`). -/
def Channel.try_send (ch : Channel) (evt : ControllerEvent) : Option Channel :=
  if ch.queue.length < ch.capacity then
    some { ch with queue := ch.queue ++ [evt] }
  else none

/-- The input callback closure of `attach_to_all` (lines 101–105): decode
the raw message; on a decoded event, `tx.try_send(event).expect(..)` — the
`expect` panic on a failed send is process-terminating, embedded as
`none`.  An unrecognized message is silently absorbed. -/
def inputCallback (ch : Channel) (msg : List Nat) : Option Channel :=
  match ControllerEvent.from_midi msg with
  | some event => ch.try_send event
  | none => some ch

/-- Rust `Controller::update_leds` (lines 166–170): if Connected, send the whole
current `led_msg_buf` as one sysex message on the owned output connection;
otherwise do nothing. -/
def Controller.update_leds (c : Controller) : Controller :=
  match c.state with
  | .Connected cs =>
      { c with
        state := ControllerState.Connected
          { cs with
            out_conn :=
              { cs.out_conn with sent := cs.out_conn.sent ++ [c.led_msg_buf] } } }
  | .Disconnected => c

/-- The in-port name of a Connected controller, `none` if Disconnected. -/
def Controller.connectedInName (c : Controller) : Option String :=
  match c.state with
  | .Connected cs => some cs.in_conn
  | .Disconnected => none

/-- One loop iteration of `attach_to_all` (lines 87–127) for the `i`-th
desired name: create the capacity-100 event channel, locate the input port
whose name equals the desired name (`unwrap` panic if it disappeared,
embedded as `none`), locate the output port of the same name, and build the
controller with one-up id `i`, both connections live, the receiver end of
the channel, and the `init`-ed 264-byte LED buffer. -/
def attachOne (i : Nat) (desired_name : String) (inPorts outPorts : List String) :
    Option Controller := do
  let in_port ← inPorts.find? (fun p => p == desired_name)
  let out_port ← outPorts.find? (fun p => p == desired_name)
  some { id := i,
         state := .Connected
           { in_conn := in_port, out_conn := { port := out_port, sent := [] } },
         event_rx := some { capacity := 100, queue := [] },
         led_msg_buf := Controller.initBuf }

/-- The `for (i, desired_name) in desired_names.into_iter().enumerate()`
loop of `attach_to_all`, accumulating the controllers in order. -/
def attachAll (inPorts outPorts : List String) : Nat → List String → Option (List Controller)
  | _, [] => some []
  | i, name :: rest => do
    let c ← attachOne i name inPorts outPorts
    let cs ← attachAll inPorts outPorts (i + 1) rest
    some (c :: cs)

/-- Rust `Controller::attach_to_all` (lines 65–131).  The transport is embedded
as the lists of advertised input and output port names; the configured
name filter string (`MIDI_INPUT_PORT_PREFIX`, not under `src/`) is the
`pfx` parameter.  First pass: collect the input port names that start with
the filter string; second pass: attach to each in enumeration order. -/
def Controller.attach_to_all (pfx : String) (inPorts outPorts : List String) :
    Option (List Controller) :=
  let desired_names := inPorts.filter (fun name => name.startsWith pfx)
  attachAll inPorts outPorts 0 desired_names

/-- The controller `attachOne` builds when both ports are present. -/
def mkCtrl (name : String) (i : Nat) : Controller :=
  { id := i,
    state := .Connected
      { in_conn := name, out_conn := { port := name, sent := [] } },
    event_rx := some { capacity := 100, queue := [] },
    led_msg_buf := Controller.initBuf }

/-- The list of controllers `attach_to_all` builds for the matched names,
ids one-up from `i`. -/
def mkControllers : Nat → List String → List Controller
  | _, [] => []
  | i, name :: rest => mkCtrl name i :: mkControllers (i + 1) rest

/-- The per-device side effects of one `attach_to_all` iteration, in source
order (lines 91–115): the bounded channel is created (line 91) before the
input connection is opened (line 100), which precedes the output
connection (line 115). -/
inductive AttachStep where
  | createChannel (capacity : Nat)
  | openInput (name : String)
  | openOutput (name : String)
deriving DecidableEq

/-- The source-order step sequence of one `attach_to_all` iteration. -/
def attachDeviceSteps (name : String) : List AttachStep :=
  [.createChannel 100, .openInput name, .openOutput name]

/-- The LED-frame operations a client may perform on a controller after
construction (jupx.rs drives exactly these). -/
inductive LedOp where
  | setLed (i r g b : Nat)
  | setColorCube
  | updateLeds

/-- Apply one operation to a controller; `none` embeds a panic. -/
def applyOp (c : Controller) : LedOp → Option Controller
  | .setLed i r g b =>
      (Controller.set_led c.led_msg_buf i r g b).map
        fun buf => { c with led_msg_buf := buf }
  | .setColorCube =>
      some { c with led_msg_buf := Controller.set_color_cube c.led_msg_buf }
  | .updateLeds => some (Controller.update_leds c)

/-- Run a sequence of LED operations. -/
def runOps (c : Controller) : List LedOp → Option Controller
  | [] => some c
  | op :: ops => (applyOp c op).bind fun c' => runOps c' ops

/-- The `StreamMap` merge loop of jupx.rs (lines 26–39) over two devices'
channels, for a given already-produced queue per device.  tokio's
availability-driven nondeterminism is embedded as an explicit scheduling
sequence: at each step the scheduler picks device A (`true`) or device B
(`false`); if the picked device has a ready event it is yielded with its
device tag, otherwise the step yields nothing. -/
def mergeEvents : List Bool → List ControllerEvent → List ControllerEvent →
    List (Bool × ControllerEvent)
  | [], _, _ => []
  | true :: s, a :: as, bs => (true, a) :: mergeEvents s as bs
  | true :: s, [], bs => mergeEvents s [] bs
  | false :: s, as, b :: bs => (false, b) :: mergeEvents s as bs
  | false :: s, as, [] => mergeEvents s as []

/-- A disconnected controller holding a freshly initialized buffer (used to
instantiate theorems at concrete inputs). -/
def ctrl0 : Controller :=
  { id := 0, state := .Disconnected, event_rx := none,
    led_msg_buf := Controller.initBuf }

/-- A connected controller with an empty send history (used to instantiate
theorems at concrete inputs). -/
def ctrlConn : Controller :=
  { id := 1,
    state := .Connected
      { in_conn := "FL STUDIO FIRE", out_conn := { port := "FL STUDIO FIRE", sent := [] } },
    event_rx := none, led_msg_buf := Controller.initBuf }

/-! ## Helper lemmas -/

theorem initBuf_length : Controller.initBuf.length = 264 := by decide

theorem set_led_eq_some (buf : List Nat) (i r g b : Nat)
    (h : 7 + i * 4 + 3 < buf.length) :
    Controller.set_led buf i r g b =
      some (((buf.set (7 + i * 4 + 1) (min 0x7f r)).set (7 + i * 4 + 2)
        (min 0x7f g)).set (7 + i * 4 + 3) (min 0x7f b)) := by
  have h1 : 7 + i * 4 + 1 < buf.length := by omega
  have h2 : 7 + i * 4 + 2 < buf.length := by omega
  simp [Controller.set_led, setChecked, h1, h2, h, List.length_set]

theorem set_led_eq_none (buf : List Nat) (i r g b : Nat)
    (h : ¬ 7 + i * 4 + 1 < buf.length) :
    Controller.set_led buf i r g b = none ∧
    setChecked buf (7 + i * 4 + 1) (min 0x7f r) = none := by
  constructor <;> simp [Controller.set_led, setChecked, h]

theorem cubeStep_length (b : List Nat) (i : Nat) :
    (Controller.cubeStep b i).length = b.length := by
  simp [Controller.cubeStep]

theorem cubeStep_getElem?_ne (b : List Nat) (i k : Nat)
    (hk : ∀ c, 1 ≤ c → c ≤ 3 → k ≠ 7 + i * 4 + c) :
    (Controller.cubeStep b i)[k]? = b[k]? := by
  have h1 := hk 1 (by omega) (by omega)
  have h2 := hk 2 (by omega) (by omega)
  have h3 := hk 3 (by omega) (by omega)
  simp only [Controller.cubeStep]
  rw [List.getElem?_set_ne (by omega), List.getElem?_set_ne (by omega),
    List.getElem?_set_ne (by omega)]

theorem cubeStep_getElem?_one (b : List Nat) (i : Nat)
    (h : 7 + i * 4 + 3 < b.length) :
    (Controller.cubeStep b i)[7 + i * 4 + 1]? = some (min 0x7f ((i % 4) * 0x20)) := by
  simp only [Controller.cubeStep]
  rw [List.getElem?_set_ne (by omega), List.getElem?_set_ne (by omega),
    List.getElem?_set_eq_of_lt _ (by omega)]

theorem cubeStep_getElem?_two (b : List Nat) (i : Nat)
    (h : 7 + i * 4 + 3 < b.length) :
    (Controller.cubeStep b i)[7 + i * 4 + 2]? = some (min 0x7f ((i / 16) * 0x20)) := by
  simp only [Controller.cubeStep]
  rw [List.getElem?_set_ne (by omega),
    List.getElem?_set_eq_of_lt _ (by rw [List.length_set]; omega)]

theorem cubeStep_getElem?_three (b : List Nat) (i : Nat)
    (h : 7 + i * 4 + 3 < b.length) :
    (Controller.cubeStep b i)[7 + i * 4 + 3]? =
      some (min 0x7f (((i % 16) / 4) * 0x20)) := by
  simp only [Controller.cubeStep]
  rw [List.getElem?_set_eq_of_lt _ (by rw [List.length_set, List.length_set]; omega)]

theorem foldl_cubeStep_length (l : List Nat) (b : List Nat) :
    (l.foldl Controller.cubeStep b).length = b.length := by
  induction l generalizing b with
  | nil => rfl
  | cons x xs ih => rw [List.foldl_cons, ih, cubeStep_length]

theorem foldl_cubeStep_getElem?_ne (l : List Nat) (b : List Nat) (k : Nat)
    (h : ∀ i ∈ l, ∀ c, 1 ≤ c → c ≤ 3 → k ≠ 7 + i * 4 + c) :
    (l.foldl Controller.cubeStep b)[k]? = b[k]? := by
  induction l generalizing b with
  | nil => rfl
  | cons x xs ih =>
    rw [List.foldl_cons, ih _ (fun i hi => h i (List.mem_cons_of_mem _ hi)),
      cubeStep_getElem?_ne _ _ _ (h x (List.mem_cons_self _ _))]

theorem set_color_cube_length (buf : List Nat) :
    (Controller.set_color_cube buf).length = buf.length :=
  foldl_cubeStep_length _ _

theorem set_color_cube_getElem?_ne (buf : List Nat) (k : Nat)
    (hk : ∀ i c, i < 64 → 1 ≤ c → c ≤ 3 → k ≠ 7 + i * 4 + c) :
    (Controller.set_color_cube buf)[k]? = buf[k]? :=
  foldl_cubeStep_getElem?_ne _ _ _
    (fun i hi c hc1 hc3 => hk i c (List.mem_range.mp hi) hc1 hc3)

theorem set_color_cube_getElem?_self (buf : List Nat) (i c : Nat)
    (hlen : buf.length = 264) (hi : i < 64) (hc1 : 1 ≤ c) (hc3 : c ≤ 3) :
    (Controller.set_color_cube buf)[7 + i * 4 + c]? =
      some (if c = 1 then min 0x7f ((i % 4) * 0x20)
        else if c = 2 then min 0x7f ((i / 16) * 0x20)
        else min 0x7f (((i % 16) / 4) * 0x20)) := by
  have h64 : (64 : Nat) = (i + 1) + (63 - i) := by omega
  unfold Controller.set_color_cube
  rw [h64, List.range_add, List.foldl_append, List.range_succ, List.foldl_append,
    List.foldl_cons, List.foldl_nil]
  rw [foldl_cubeStep_getElem?_ne]
  case h =>
    intro j hj c' hc1' hc3'
    simp only [List.mem_map, List.mem_range] at hj
    obtain ⟨t, ht, rfl⟩ := hj
    omega
  have hlen' : (List.foldl Controller.cubeStep buf (List.range i)).length = 264 := by
    rw [foldl_cubeStep_length]; exact hlen
  interval_cases c
  · rw [cubeStep_getElem?_one _ _ (by omega)]; simp
  · rw [cubeStep_getElem?_two _ _ (by omega)]; simp
  · rw [cubeStep_getElem?_three _ _ (by omega)]; simp

theorem triple_set_idem (l : List Nat) (a b c va vb vc : Nat)
    (hab : a ≠ b) (hac : a ≠ c) (hbc : b ≠ c) :
    ((((((l.set a va).set b vb).set c vc).set a va).set b vb).set c vc) =
      ((l.set a va).set b vb).set c vc := by
  have e1 : ((((l.set a va).set b vb).set c vc).set a va) =
      (((l.set a va).set b vb).set c vc) := by
    rw [List.set_comm _ _ _ (Ne.symm hac), List.set_comm _ _ _ (Ne.symm hab),
      List.set_set]
  have e2 : ((((l.set a va).set b vb).set c vc).set b vb) =
      (((l.set a va).set b vb).set c vc) := by
    rw [List.set_comm _ _ _ (Ne.symm hbc), List.set_set]
  rw [e1, e2, List.set_set]

theorem update_leds_led_msg_buf (c : Controller) :
    (Controller.update_leds c).led_msg_buf = c.led_msg_buf := by
  cases h : c.state <;> simp [Controller.update_leds, h]

theorem applyOp_preserves (c c' : Controller) (op : LedOp)
    (hlen : c.led_msg_buf.length = 264) (h : applyOp c op = some c') :
    c'.led_msg_buf.length = 264 ∧
    ∀ k, k < 7 ∨ (k - 7) % 4 = 0 → c'.led_msg_buf[k]? = c.led_msg_buf[k]? := by
  cases op with
  | setLed i r g b =>
    simp only [applyOp] at h
    obtain ⟨buf', hbuf', rfl⟩ := Option.map_eq_some'.mp h
    by_cases hi : 7 + i * 4 + 1 < c.led_msg_buf.length
    · have hb3 : 7 + i * 4 + 3 < c.led_msg_buf.length := by omega
      rw [set_led_eq_some _ _ _ _ _ hb3] at hbuf'
      injection hbuf' with hbuf'
      subst hbuf'
      refine ⟨by simp [List.length_set, hlen], fun k hk => ?_⟩
      show (((c.led_msg_buf.set _ _).set _ _).set _ _)[k]? = c.led_msg_buf[k]?
      rw [List.getElem?_set_ne (by omega), List.getElem?_set_ne (by omega),
        List.getElem?_set_ne (by omega)]
    · exact absurd hbuf'
        (by rw [(set_led_eq_none _ i r g b hi).1]; exact fun hne => by cases hne)
  | setColorCube =>
    simp only [applyOp, Option.some.injEq] at h
    have hb : c'.led_msg_buf = Controller.set_color_cube c.led_msg_buf := by
      rw [← h]
    refine ⟨by rw [hb, set_color_cube_length, hlen], fun k hk => ?_⟩
    rw [hb]
    exact set_color_cube_getElem?_ne _ _ (by omega)
  | updateLeds =>
    simp only [applyOp, Option.some.injEq] at h
    have hb : c'.led_msg_buf = c.led_msg_buf := by
      rw [← h, update_leds_led_msg_buf]
    exact ⟨by rw [hb, hlen], fun k _ => by rw [hb]⟩

theorem runOps_preserves (ops : List LedOp) (c c' : Controller)
    (hlen : c.led_msg_buf.length = 264) (h : runOps c ops = some c') :
    c'.led_msg_buf.length = 264 ∧
    ∀ k, k < 7 ∨ (k - 7) % 4 = 0 → c'.led_msg_buf[k]? = c.led_msg_buf[k]? := by
  induction ops generalizing c with
  | nil =>
    simp only [runOps, Option.some.injEq] at h
    subst h
    exact ⟨hlen, fun k _ => rfl⟩
  | cons op ops ih =>
    simp only [runOps] at h
    obtain ⟨c1, h1, h2⟩ := Option.bind_eq_some.mp h
    obtain ⟨hl1, hp1⟩ := applyOp_preserves c c1 op hlen h1
    obtain ⟨hl2, hp2⟩ := ih c1 hl1 h2
    exact ⟨hl2, fun k hk => (hp2 k hk).trans (hp1 k hk)⟩

/-! ## Claim theorems -/

/-- Claim C1: for every valid cell index `i < 64` and every byte triple
`(r, g, b)`, `set_led i r g b` succeeds on any 264-byte buffer and the
three color bytes of cell `i` (offsets `7 + i*4 + 1 .. 7 + i*4 + 3`) then
hold `min 0x7f r`, `min 0x7f g`, `min 0x7f b`, independent of the buffer's
prior contents; repeating the identical call changes nothing. -/
theorem c1_set_led_clamped (buf : List Nat) (i r g b : Nat)
    (hlen : buf.length = 264) (hi : i < 64) :
    ∃ buf', Controller.set_led buf i r g b = some buf' ∧
      buf'[7 + i * 4 + 1]? = some (min 0x7f r) ∧
      buf'[7 + i * 4 + 2]? = some (min 0x7f g) ∧
      buf'[7 + i * 4 + 3]? = some (min 0x7f b) ∧
      Controller.set_led buf' i r g b = some buf' := by
  have hb3 : 7 + i * 4 + 3 < buf.length := by omega
  refine ⟨_, set_led_eq_some buf i r g b hb3, ?_, ?_, ?_, ?_⟩
  · rw [List.getElem?_set_ne (by omega), List.getElem?_set_ne (by omega),
      List.getElem?_set_eq_of_lt _ (by omega)]
  · rw [List.getElem?_set_ne (by omega),
      List.getElem?_set_eq_of_lt _ (by rw [List.length_set]; omega)]
  · rw [List.getElem?_set_eq_of_lt _ (by rw [List.length_set, List.length_set]; omega)]
  · have hl3 : (((buf.set (7 + i * 4 + 1) (min 0x7f r)).set (7 + i * 4 + 2)
        (min 0x7f g)).set (7 + i * 4 + 3) (min 0x7f b)).length = 264 := by
      simp [List.length_set, hlen]
    rw [set_led_eq_some _ i r g b (by rw [hl3]; omega)]
    rw [triple_set_idem _ _ _ _ _ _ _ (by omega) (by omega) (by omega)]

/-- Witness for C1, the concrete scenario of the claim: on a freshly
initialized frame, `set_led 0 0x90 0x10 0x10` yields bytes
`0x7F, 0x10, 0x10` at offsets 8..10 (the red channel clamped from 0x90). -/
theorem c1_witness :
    ∃ buf', Controller.set_led Controller.initBuf 0 0x90 0x10 0x10 = some buf' ∧
      buf'[8]? = some 0x7f ∧ buf'[9]? = some 0x10 ∧ buf'[10]? = some 0x10 ∧
      Controller.set_led buf' 0 0x90 0x10 0x10 = some buf' := by
  obtain ⟨buf', h1, h2, h3, h4, h5⟩ :=
    c1_set_led_clamped Controller.initBuf 0 0x90 0x10 0x10 initBuf_length (by omega)
  have e1 : min 0x7f 0x90 = 0x7f := by omega
  have e2 : min 0x7f 0x10 = 0x10 := by omega
  rw [e1] at h2
  rw [e2] at h3 h4
  exact ⟨buf', h1, h2, h3, h4, h5⟩

/-- Claim C2: after construction and `init` with N = 64, the LED buffer has
length `7 + 4*64 + 1 = 264` and the full wire layout: sysex start `0xF0`,
the fixed vendor-id/sub-command bytes `0x47 0x7F 0x43 0x65`, the 14-bit
length `4*64` split big-endian over bytes 5 and 6, index byte `i` at
`7 + 4*i` for each cell, zero color bytes, and terminator `0xF7` at
offset 263. -/
theorem c2_init_layout :
    Controller.initBuf.length = 7 + 4 * 64 + 1 ∧
    Controller.initBuf[0]? = some 0xf0 ∧
    Controller.initBuf[1]? = some 0x47 ∧
    Controller.initBuf[2]? = some 0x7f ∧
    Controller.initBuf[3]? = some 0x43 ∧
    Controller.initBuf[4]? = some 0x65 ∧
    Controller.initBuf[5]? = some (((4 * 64) >>> 7) &&& 0x7f) ∧
    Controller.initBuf[6]? = some ((4 * 64) &&& 0x7f) ∧
    (∀ i, i < 64 → Controller.initBuf[7 + 4 * i]? = some i ∧
      Controller.initBuf[7 + 4 * i + 1]? = some 0 ∧
      Controller.initBuf[7 + 4 * i + 2]? = some 0 ∧
      Controller.initBuf[7 + 4 * i + 3]? = some 0) ∧
    Controller.initBuf[263]? = some 0xf7 := by decide

/-- Witness for C2: the bounded per-cell clause instantiated at cell 5. -/
theorem c2_witness : Controller.initBuf[7 + 4 * 5]? = some 5 :=
  (c2_init_layout.2.2.2.2.2.2.2.2.1 5 (by omega)).1

/-- Claim C3: over any sequence of `set_led` (with in-range indices, which
is forced: an out-of-range index panics), `set_color_cube` and
`update_leds` calls after a fresh `init`, the header bytes (offsets below
7), the per-cell index bytes (offsets `7 + 4*i`) and the terminator
(offset 263 = 7 + 4*64) keep exactly their initialization values. -/
theorem c3_init_bytes_invariant (ops : List LedOp) (c c' : Controller)
    (hbuf : c.led_msg_buf = Controller.initBuf)
    (hrun : runOps c ops = some c') :
    ∀ k, k < 7 ∨ (k - 7) % 4 = 0 →
      c'.led_msg_buf[k]? = Controller.initBuf[k]? := by
  intro k hk
  have hp := runOps_preserves ops c c' (by rw [hbuf, initBuf_length]) hrun
  rw [hp.2 k hk, hbuf]

/-- Witness for C3: one `set_led`, one `set_color_cube` is not needed — a
single in-range `set_led 2 200 3 4` followed by an `update_leds` leaves the
sysex start byte untouched. -/
theorem c3_witness :
    (Controller.update_leds
        { ctrl0 with
          led_msg_buf :=
            ((Controller.initBuf.set 16 0x7f).set 17 3).set 18 4 }).led_msg_buf[0]? =
      Controller.initBuf[0]? :=
  c3_init_bytes_invariant [LedOp.setLed 2 200 3 4, LedOp.updateLeds] ctrl0 _ rfl
    rfl 0 (by omega)

/-- Claim C4: for every index `i` outside `[0, 64)` and every `(r, g, b)`,
`set_led` fails with the out-of-bounds panic and modifies no byte: its very
first checked write is already out of bounds on the 264-byte buffer, so no
write happens before the panic. -/
theorem c4_set_led_out_of_range (buf : List Nat) (i r g b : Nat)
    (hlen : buf.length = 264) (hi : 64 ≤ i) :
    Controller.set_led buf i r g b = none ∧
    setChecked buf (7 + i * 4 + 1) (min 0x7f r) = none :=
  set_led_eq_none buf i r g b (by omega)

/-- Witness for C4: `set_led 64 1 2 3` on a fresh frame panics without
writing. -/
theorem c4_witness :
    Controller.set_led Controller.initBuf 64 1 2 3 = none ∧
    setChecked Controller.initBuf (7 + 64 * 4 + 1) (min 0x7f 1) = none :=
  c4_set_led_out_of_range Controller.initBuf 64 1 2 3 initBuf_length (by omega)

/-- Claim C10: for every cell `i < 64` and any 264-byte starting buffer,
`set_color_cube` leaves `(i % 4)*0x20`, `(i / 16)*0x20` and
`((i % 16) / 4)*0x20` in the three color bytes of cell `i`; each value is
at most `0x60`, so the `0x7f` clamp never engages, and the operation is
idempotent. -/
theorem c10_color_cube (buf : List Nat) (i : Nat)
    (hlen : buf.length = 264) (hi : i < 64) :
    (Controller.set_color_cube buf)[7 + i * 4 + 1]? = some ((i % 4) * 0x20) ∧
    (Controller.set_color_cube buf)[7 + i * 4 + 2]? = some ((i / 16) * 0x20) ∧
    (Controller.set_color_cube buf)[7 + i * 4 + 3]? =
      some (((i % 16) / 4) * 0x20) ∧
    (i % 4) * 0x20 ≤ 0x60 ∧ (i / 16) * 0x20 ≤ 0x60 ∧
    ((i % 16) / 4) * 0x20 ≤ 0x60 ∧
    Controller.set_color_cube (Controller.set_color_cube buf) =
      Controller.set_color_cube buf := by
  refine ⟨?_, ?_, ?_, by omega, by omega, by omega, ?_⟩
  · rw [set_color_cube_getElem?_self buf i 1 hlen hi (by omega) (by omega)]
    have : min 0x7f ((i % 4) * 0x20) = (i % 4) * 0x20 := by omega
    simp [this]
  · rw [set_color_cube_getElem?_self buf i 2 hlen hi (by omega) (by omega)]
    have : min 0x7f ((i / 16) * 0x20) = (i / 16) * 0x20 := by omega
    simp [this]
  · rw [set_color_cube_getElem?_self buf i 3 hlen hi (by omega) (by omega)]
    have : min 0x7f (((i % 16) / 4) * 0x20) = ((i % 16) / 4) * 0x20 := by omega
    simp [this]
  · apply List.ext_getElem?
    intro k
    by_cases hk : ∃ j, j < 64 ∧ ∃ c, 1 ≤ c ∧ c ≤ 3 ∧ k = 7 + j * 4 + c
    · obtain ⟨j, hj, c, hc1, hc3, rfl⟩ := hk
      rw [set_color_cube_getElem?_self _ j c
          (by rw [set_color_cube_length]; exact hlen) hj hc1 hc3,
        set_color_cube_getElem?_self _ j c hlen hj hc1 hc3]
    · have hk' : ∀ j c, j < 64 → 1 ≤ c → c ≤ 3 → k ≠ 7 + j * 4 + c :=
        fun j c hj hc1 hc3 heq => hk ⟨j, hj, c, hc1, hc3, heq⟩
      rw [set_color_cube_getElem?_ne _ _ hk', set_color_cube_getElem?_ne _ _ hk']

/-- Witness for C10 at cell 37 of a fresh frame. -/
theorem c10_witness :
    (Controller.set_color_cube Controller.initBuf)[7 + 37 * 4 + 1]? =
      some ((37 % 4) * 0x20) ∧
    (Controller.set_color_cube Controller.initBuf)[7 + 37 * 4 + 2]? =
      some ((37 / 16) * 0x20) ∧
    (Controller.set_color_cube Controller.initBuf)[7 + 37 * 4 + 3]? =
      some (((37 % 16) / 4) * 0x20) ∧
    (37 % 4) * 0x20 ≤ 0x60 ∧ (37 / 16) * 0x20 ≤ 0x60 ∧
    ((37 % 16) / 4) * 0x20 ≤ 0x60 ∧
    Controller.set_color_cube (Controller.set_color_cube Controller.initBuf) =
      Controller.set_color_cube Controller.initBuf :=
  c10_color_cube Controller.initBuf 37 initBuf_length (by omega)

theorem find?_beq_self (l : List String) (a : String) (h : a ∈ l) :
    l.find? (fun p => p == a) = some a := by
  induction l with
  | nil => cases h
  | cons x xs ih =>
    by_cases hx : x = a
    · subst hx
      exact List.find?_cons_of_pos _ (by simp)
    · have hmem : a ∈ xs := by
        rcases List.mem_cons.mp h with h1 | h1
        · exact absurd h1.symm hx
        · exact h1
      rw [List.find?_cons_of_neg _ (by simp [hx])]
      exact ih hmem

theorem attachOne_eq (i : Nat) (name : String) (inPorts outPorts : List String)
    (hin : name ∈ inPorts) (hout : name ∈ outPorts) :
    attachOne i name inPorts outPorts = some (mkCtrl name i) := by
  simp only [attachOne, find?_beq_self _ _ hin, find?_beq_self _ _ hout,
    Option.some_bind]
  rfl

theorem attachAll_eq (inPorts outPorts : List String) (names : List String) (i : Nat)
    (hin : ∀ name ∈ names, name ∈ inPorts)
    (hout : ∀ name ∈ names, name ∈ outPorts) :
    attachAll inPorts outPorts i names = some (mkControllers i names) := by
  induction names generalizing i with
  | nil => rfl
  | cons n ns ih =>
    simp only [attachAll]
    rw [attachOne_eq _ _ _ _ (hin n (List.mem_cons_self _ _))
        (hout n (List.mem_cons_self _ _)),
      ih (i + 1) (fun m hm => hin m (List.mem_cons_of_mem _ hm))
        (fun m hm => hout m (List.mem_cons_of_mem _ hm))]
    rfl

theorem mkControllers_length (i : Nat) (names : List String) :
    (mkControllers i names).length = names.length := by
  induction names generalizing i with
  | nil => rfl
  | cons n ns ih => simp [mkControllers, ih]

theorem mkControllers_map_id (i : Nat) (names : List String) :
    (mkControllers i names).map (fun c => c.id) = List.range' i names.length := by
  induction names generalizing i with
  | nil => rfl
  | cons n ns ih =>
    rw [show (n :: ns).length = ns.length + 1 from rfl, List.range'_succ]
    simp [mkControllers, mkCtrl, ih]

theorem mkControllers_map_inName (i : Nat) (names : List String) :
    (mkControllers i names).map Controller.connectedInName = names.map some := by
  induction names generalizing i with
  | nil => rfl
  | cons n ns ih =>
    simp [mkControllers, mkCtrl, Controller.connectedInName, ih]

/-- Claim C5: the event decoder is total — for every raw byte sequence it
returns either a typed event or "no event", and any byte pattern not
matching a recognized message shape yields "no event"; it never raises an
error. -/
theorem c5_decoder_total (msg : List Nat) :
    ((∃ e, ControllerEvent.from_midi msg = some e) ∨
      ControllerEvent.from_midi msg = none) ∧
    (¬ recognizedShape msg → ControllerEvent.from_midi msg = none) := by
  constructor
  · cases h : ControllerEvent.from_midi msg with
    | some e => exact Or.inl ⟨e, rfl⟩
    | none => exact Or.inr rfl
  · intro hn
    match msg with
    | [] => rfl
    | [a] => rfl
    | [a, b] => rfl
    | a :: b :: c :: d :: rest => rfl
    | [a, b, c] =>
      simp only [ControllerEvent.from_midi]
      by_cases h90 : a = 0x90
      · exact absurd ⟨b, c, Or.inl (by rw [h90])⟩ hn
      · by_cases h80 : a = 0x80
        · exact absurd ⟨b, c, Or.inr (by rw [h80])⟩ hn
        · rw [if_neg h90, if_neg h80]

/-- Witness for C5: the one-byte message `[0x99]` matches no recognized
shape and decodes to "no event". -/
theorem c5_witness : ControllerEvent.from_midi [0x99] = none :=
  (c5_decoder_total [0x99]).2
    (by rintro ⟨n, v, h | h⟩ <;> simp at h)

/-- Claim C6: on a Connected controller `update_leds` appends the entire
current 264-byte LED buffer as exactly one outbound sysex message to the
owned output connection's send history and changes nothing else; on a
Disconnected controller it is a complete no-op. -/
theorem c6_update_leds_sends (c : Controller) :
    (∀ cs, c.state = ControllerState.Connected cs →
      Controller.update_leds c =
        { c with
          state := ControllerState.Connected
            { cs with
              out_conn :=
                { cs.out_conn with
                  sent := cs.out_conn.sent ++ [c.led_msg_buf] } } }) ∧
    (c.state = ControllerState.Disconnected → Controller.update_leds c = c) := by
  obtain ⟨cid, cst, crx, cbuf⟩ := c
  constructor
  · rintro cs hcs
    cases hcs
    rfl
  · rintro hd
    cases hd
    rfl

/-- Witness for C6: one Connected and one Disconnected controller. -/
theorem c6_witness :
    Controller.update_leds ctrlConn =
      { ctrlConn with
        state := ControllerState.Connected
          { in_conn := "FL STUDIO FIRE",
            out_conn :=
              { port := "FL STUDIO FIRE", sent := [ctrlConn.led_msg_buf] } } } ∧
    Controller.update_leds ctrl0 = ctrl0 :=
  ⟨(c6_update_leds_sends ctrlConn).1 _ rfl, (c6_update_leds_sends ctrl0).2 rfl⟩

/-- Claim C7: for every set of available transport ports in which each
matching input name also has an output port, `attach_to_all` returns
exactly one controller per input port whose advertised name starts with the
configured filter string, in enumeration order, with ids assigned
sequentially from 0 (hence pairwise distinct); zero matching ports yield
the empty collection without failing. -/
theorem c7_attach_to_all (pfx : String) (inPorts outPorts : List String)
    (hout : ∀ name ∈ inPorts.filter (fun n => n.startsWith pfx), name ∈ outPorts) :
    ∃ ctrls, Controller.attach_to_all pfx inPorts outPorts = some ctrls ∧
      ctrls.length = (inPorts.filter (fun n => n.startsWith pfx)).length ∧
      ctrls.map (fun c => c.id) = List.range ctrls.length ∧
      (ctrls.map (fun c => c.id)).Nodup ∧
      ctrls.map Controller.connectedInName =
        (inPorts.filter (fun n => n.startsWith pfx)).map some ∧
      (inPorts.filter (fun n => n.startsWith pfx) = [] → ctrls = []) := by
  refine ⟨mkControllers 0 (inPorts.filter (fun n => n.startsWith pfx)),
    ?_, ?_, ?_, ?_, ?_, ?_⟩
  · exact attachAll_eq inPorts outPorts _ 0
      (fun n hn => List.mem_of_mem_filter hn) hout
  · exact mkControllers_length 0 _
  · rw [mkControllers_map_id, mkControllers_length, List.range_eq_range']
  · rw [mkControllers_map_id]
    exact List.nodup_range' 0 _ 1 Nat.one_pos
  · exact mkControllers_map_inName 0 _
  · intro h
    rw [h]
    rfl

/-- Witness for C7, the zero-matching-ports scenario of the claim: with no
input ports at all, attach succeeds with the empty collection. -/
theorem c7_witness :
    ∃ ctrls, Controller.attach_to_all "FL STUDIO FIRE" [] ["FL STUDIO FIRE"] =
        some ctrls ∧
      ctrls.length =
        (([] : List String).filter (fun n => n.startsWith "FL STUDIO FIRE")).length ∧
      ctrls.map (fun c => c.id) = List.range ctrls.length ∧
      (ctrls.map (fun c => c.id)).Nodup ∧
      ctrls.map Controller.connectedInName =
        (([] : List String).filter (fun n => n.startsWith "FL STUDIO FIRE")).map some ∧
      (([] : List String).filter (fun n => n.startsWith "FL STUDIO FIRE") = [] →
        ctrls = []) :=
  c7_attach_to_all "FL STUDIO FIRE" [] ["FL STUDIO FIRE"] (by simp)

/-- Claim C8: each attached device's event channel is bounded with
capacity 100 and, in the per-device attach sequence, its creation precedes
the opening of the input connection; a full channel makes the callback's
non-blocking send fail, and the failure is process-terminating rather than
event-dropping. -/
theorem c8_channel_policy (i : Nat) (name : String) (inPorts outPorts : List String)
    (c : Controller) (hc : attachOne i name inPorts outPorts = some c)
    (ch : Channel) (msg : List Nat) (evt : ControllerEvent)
    (hfull : ch.queue.length = ch.capacity)
    (hevt : ControllerEvent.from_midi msg = some evt) :
    c.event_rx = some { capacity := 100, queue := [] } ∧
    (∃ k1 k2 : Nat, k1 < k2 ∧
      (attachDeviceSteps name)[k1]? = some (AttachStep.createChannel 100) ∧
      (attachDeviceSteps name)[k2]? = some (AttachStep.openInput name)) ∧
    inputCallback ch msg = none := by
  refine ⟨?_, ⟨0, 1, by omega, rfl, rfl⟩, ?_⟩
  · simp only [attachOne] at hc
    obtain ⟨inp, hinp, hc2⟩ := Option.bind_eq_some.mp hc
    obtain ⟨outp, houtp, hc3⟩ := Option.bind_eq_some.mp hc2
    simp only [Option.some.injEq] at hc3
    rw [← hc3]
  · simp only [inputCallback, hevt, Channel.try_send]
    rw [if_neg (by omega)]

/-- Witness for C8: a device attached on port "F", a channel holding 100
events (full at capacity 100), and a decodable press message. -/
theorem c8_witness :
    (mkCtrl "F" 0).event_rx = some { capacity := 100, queue := [] } ∧
    (∃ k1 k2 : Nat, k1 < k2 ∧
      (attachDeviceSteps "F")[k1]? = some (AttachStep.createChannel 100) ∧
      (attachDeviceSteps "F")[k2]? = some (AttachStep.openInput "F")) ∧
    inputCallback
      { capacity := 100, queue := List.replicate 100 ControllerEvent.Other }
      [0x90, 5, 7] = none :=
  c8_channel_policy 0 "F" ["F"] ["F"] (mkCtrl "F" 0)
    (attachOne_eq 0 "F" ["F"] ["F"] (by simp) (by simp))
    { capacity := 100, queue := List.replicate 100 ControllerEvent.Other }
    [0x90, 5, 7] (ControllerEvent.GridButton 5 0 5 ButtonState.Down 7)
    (by simp) rfl

/-- Claim C9: for any scheduling interleaving of two devices' event
queues, the events the merge yields for device A form a prefix of A's
enqueue order (and likewise for B) — per-device FIFO is preserved
regardless of how the two devices' events interleave. -/
theorem c9_per_device_fifo (s : List Bool) (qA qB : List ControllerEvent) :
    (∃ kA, (mergeEvents s qA qB).filterMap
        (fun p => bif p.1 then some p.2 else none) = qA.take kA) ∧
    (∃ kB, (mergeEvents s qA qB).filterMap
        (fun p => bif p.1 then none else some p.2) = qB.take kB) := by
  induction s generalizing qA qB with
  | nil => exact ⟨⟨0, by simp [mergeEvents]⟩, ⟨0, by simp [mergeEvents]⟩⟩
  | cons c s ih =>
    cases c
    · cases qB with
      | nil =>
        obtain ⟨⟨kA, hA⟩, ⟨kB, hB⟩⟩ := ih qA []
        exact ⟨⟨kA, by simpa [mergeEvents] using hA⟩,
          ⟨kB, by simpa [mergeEvents] using hB⟩⟩
      | cons b bs =>
        obtain ⟨⟨kA, hA⟩, ⟨kB, hB⟩⟩ := ih qA bs
        refine ⟨⟨kA, ?_⟩, ⟨kB + 1, ?_⟩⟩
        · simpa [mergeEvents, List.filterMap_cons] using hA
        · simp [mergeEvents, List.filterMap_cons, hB]
    · cases qA with
      | nil =>
        obtain ⟨⟨kA, hA⟩, ⟨kB, hB⟩⟩ := ih [] qB
        exact ⟨⟨kA, by simpa [mergeEvents] using hA⟩,
          ⟨kB, by simpa [mergeEvents] using hB⟩⟩
      | cons a as =>
        obtain ⟨⟨kA, hA⟩, ⟨kB, hB⟩⟩ := ih as qB
        refine ⟨⟨kA + 1, ?_⟩, ⟨kB, ?_⟩⟩
        · simp [mergeEvents, List.filterMap_cons, hA]
        · simpa [mergeEvents, List.filterMap_cons] using hB
